import Mathlib

/-!
Verification of the temporal correlation and pattern-detection engine of the
student-logging application (`src/utils/analyticsHelpers.js`).

Shallow embedding conventions:
* A JavaScript epoch-millisecond instant is an `Int`.  An *invalid* instant
  (JavaScript `NaN` / `Invalid Date`) is `none : Option Int`; every relational
  comparison against `none` is `false`, exactly as every comparison against
  `NaN` is `false` in JavaScript.
* `new Date(ms)` applies the ECMAScript TimeClip: any magnitude above
  8,640,000,000,000,000 ms becomes an Invalid Date (`none`).
* The host's date-string parser (`new Date(string).getTime()`) is a parameter
  `pd : String → Option Int` of every definition, `none` marking an
  unparseable string; the engine's behaviour is parametric in it.
* `Date.now()` is passed explicitly as a `now : Int` parameter.
* `date-fns`' `format(d, 'EEEE')` throws a `RangeError` on an Invalid Date;
  it is modelled in the `Except String` monad.  Day-of-week names are
  computed in UTC (epoch day 0, 1970-01-01, was a Thursday).
* A log record's `timestamp` and `id` fields each carry a number, a string,
  or are absent; alert `timestamp: new Date()` metadata is wall-clock noise
  and is not modelled.
-/

namespace Nykrea

/-- The ECMAScript Date range bound: 8.64e15 milliseconds. -/
def maxDateMs : Nat := 8640000000000000

/-- ECMAScript TimeClip: `new Date(ms)` is valid only within ±8.64e15 ms. -/
def timeClip (n : Int) : Option Int :=
  if n.natAbs ≤ maxDateMs then some n else none

/-- `new Date(x).getTime()` for an `x` that is already a (possibly invalid)
millisecond value: clips valid values, propagates invalidity. -/
def jsDate (o : Option Int) : Option Int := o.bind timeClip

/-- JavaScript `a > b` on (possibly invalid) Date values: `false` whenever
either side is `NaN`. -/
def optGT : Option Int → Option Int → Bool
  | some a, some b => decide (b < a)
  | _, _ => false

/-- JavaScript `a >= b` on (possibly invalid) Date values: `false` whenever
either side is `NaN`. -/
def optGE : Option Int → Option Int → Bool
  | some a, some b => decide (b ≤ a)
  | _, _ => false

/-- A log record's `timestamp` or `id` field: a JS number, a JS string, or
absent (`undefined`). -/
inductive TsField where
  | num (n : Int)
  | str (s : String)
  | absent
deriving DecidableEq, Repr

/-- A log record, with exactly the fields the analytics code reads. -/
structure Log where
  timestamp : TsField
  id : TsField
  type : String
  value : String
  category : String
  intensity : String
deriving DecidableEq, Repr

/-- `getLogTimestamp` (analyticsHelpers.js lines 4–15): a numeric `timestamp`
is used directly; a string `timestamp` is parsed (the possibly-NaN parse
result is returned as is — there is no fall-through to `id` on a failed
parse); only when `timestamp` is neither number nor string is `id` used,
numerically or via the parser. -/
def getLogTimestamp (pd : String → Option Int) (log : Log) : Option Int :=
  match log.timestamp with
  | .num n => some n
  | .str s => pd s
  | .absent =>
    match log.id with
    | .num n => some n
    | .str s => pd s
    | .absent => none

/-- The hardcoded two-hour window: `2 * 60 * 60 * 1000` ms. -/
def twoHoursMs : Int := 7200000

/-- `new Date(logTime.getTime() + 2*60*60*1000)`: the forward-window deadline
of a stimulus log (`twoHoursLater` in the source); invalid whenever the
stimulus instant is. -/
def stimulusDeadline (pd : String → Option Int) (log : Log) : Option Int :=
  ((jsDate (getLogTimestamp pd log)).map (fun t => t + twoHoursMs)).bind timeClip

/-- The inner look-ahead loop of `getSensoryMoodCorrelation` (lines 179–190):
walk the logs after the stimulus; stop (unmatched) as soon as a log's instant
exceeds the deadline; report a match at the first `feeling` log carrying the
target `mood`. -/
def scanForward (pd : String → Option Int) (deadline : Option Int)
    (mood : String) : List Log → Bool
  | [] => false
  | l :: rest =>
    if optGT (jsDate (getLogTimestamp pd l)) deadline then false
    else if l.type == "feeling" && l.value == mood then true
    else scanForward pd deadline mood rest

/-- The per-pair counting pass of `getSensoryMoodCorrelation` (lines 172–192):
every `sensory` log of the target category contributes 1 if its forward scan
finds the mood, else 0. -/
def countPair (pd : String → Option Int) (category mood : String) :
    List Log → Nat
  | [] => 0
  | l :: rest =>
    (if l.type == "sensory" && l.category == category then
      (if scanForward pd (stimulusDeadline pd l) mood rest then 1 else 0)
     else 0) + countPair pd category mood rest

/-- The hardcoded stimulus categories (line 160). -/
def sensoryCategories : List String := ["Visual", "Auditory", "Tactile"]

/-- The hardcoded mood labels (line 161). -/
def moods : List String := ["Happy", "Sad", "Angry", "Anxious"]

/-- A returned correlation record `{ sensory, mood, count }`. -/
structure Correlation where
  sensory : String
  mood : String
  count : Nat
deriving DecidableEq, Repr

/-- The `correlations` array of `getSensoryMoodCorrelation` (lines 159–199):
one record pushed per (category, mood) pair of the cartesian product —
categories outer, moods inner. -/
def correlationRecords (pd : String → Option Int) (logs : List Log) :
    List Correlation :=
  sensoryCategories.foldl (fun acc category =>
    moods.foldl (fun acc2 mood =>
      acc2 ++ [⟨category, mood, countPair pd category mood logs⟩]) acc) []

/-- `getSensoryMoodCorrelation` (lines 157–204): build the records, then
drop the zero-count ones (line 203). -/
def getSensoryMoodCorrelation (pd : String → Option Int) (logs : List Log) :
    List Correlation :=
  (correlationRecords pd logs).filter (fun c => 0 < c.count)

/-- Modelled from the spec's words (§4.2): the output is, in iteration
order, the cartesian product of the two label sets — categories outer,
moods inner — with each pair's scan count, zero-count pairs discarded.
Compared against `getSensoryMoodCorrelation` in the determinism/ordering
claim. -/
def specCorrelations (pd : String → Option Int) (logs : List Log) :
    List Correlation :=
  (sensoryCategories.flatMap (fun category =>
    moods.map (fun mood =>
      ⟨category, mood, countPair pd category mood logs⟩))).filter
    (fun c => 0 < c.count)

/-- `getSensoryMoodCorrelation` as invoked from JavaScript: calling it with a
null/undefined `logs` throws a `TypeError` at `logs.forEach`. -/
def getSensoryMoodCorrelationJS (pd : String → Option Int)
    (logs : Option (List Log)) : Except String (List Correlation) :=
  match logs with
  | none => .error "TypeError: logs is null or undefined"
  | some ls => .ok (getSensoryMoodCorrelation pd ls)

/-- An alert `{ type, message }` pushed by `detectPatterns`; the wall-clock
`timestamp: new Date()` field is metadata and is not modelled. -/
structure Alert where
  type : String
  message : String
deriving DecidableEq, Repr

/-- UTC weekday names indexed Sunday = 0 … Saturday = 6. -/
def weekdayNames : List String :=
  ["Sunday", "Monday", "Tuesday", "Wednesday", "Thursday", "Friday", "Saturday"]

/-- `format(d, 'EEEE')` on a valid instant, in UTC: epoch day 0
(1970-01-01) was a Thursday, hence the offset 4. -/
def dayOfWeekName (ms : Int) : String :=
  weekdayNames.getD ((Int.fdiv ms 86400000 + 4) % 7).toNat ""

/-- The `RangeError` message date-fns v2 `format` throws on an Invalid Date. -/
def invalidTimeMsg : String := "RangeError: Invalid time value"

/-- Rule 1 predicate (lines 250–253): a `feeling` log labelled Anxious or
Angry whose instant is at or after the shared two-hours-ago cutoff. -/
def rule1Pred (pd : String → Option Int) (now : Int) (l : Log) : Bool :=
  l.type == "feeling" && (l.value == "Anxious" || l.value == "Angry") &&
    optGE (jsDate (getLogTimestamp pd l)) (timeClip (now - twoHoursMs))

/-- Rule 1 (lines 249–262): at least three qualifying logs emit one warning
with the count interpolated into the message. -/
def rule1Alerts (pd : String → Option Int) (now : Int) (logs : List Log) :
    List Alert :=
  let recent := logs.filter (rule1Pred pd now)
  if 3 ≤ recent.length then
    [⟨"warning", toString recent.length ++ " anxious/angry logs in the past 2 hours"⟩]
  else []

/-- Rule 2 predicate (lines 266–269): a High-intensity `sensory` log whose
instant is at or after the shared two-hours-ago cutoff. -/
def rule2Pred (pd : String → Option Int) (now : Int) (l : Log) : Bool :=
  l.type == "sensory" && l.intensity == "High" &&
    optGE (jsDate (getLogTimestamp pd l)) (timeClip (now - twoHoursMs))

/-- Rule 2 (lines 265–277): at least two qualifying logs emit one info alert. -/
def rule2Alerts (pd : String → Option Int) (now : Int) (logs : List Log) :
    List Alert :=
  if 2 ≤ (logs.filter (rule2Pred pd now)).length then
    [⟨"info", "Multiple high sensory intensity logs detected"⟩]
  else []

/-- The inner counting map of Rule 3: mood label → count, in insertion order
(JS object key order for non-index string keys). -/
abbrev MoodCounts := List (String × Nat)

/-- The outer map of Rule 3: weekday name → mood counts, in insertion order. -/
abbrev DayMoods := List (String × MoodCounts)

/-- `acc[mood]++` with `acc[mood] = 0` when absent (lines 286–289). -/
def bumpMood : MoodCounts → String → MoodCounts
  | [], m => [(m, 1)]
  | (k, n) :: rest, m =>
    if k == m then (k, n + 1) :: rest else (k, n) :: bumpMood rest m

/-- `acc[day][mood]++` creating the day bucket when absent (lines 283–289). -/
def bumpDay : DayMoods → String → String → DayMoods
  | [], d, m => [(d, [(m, 1)])]
  | (k, mc) :: rest, d, m =>
    if k == d then (k, bumpMood mc m) :: rest else (k, mc) :: bumpDay rest d m

/-- One step of the Rule 3 grouping reduce (lines 282–291): a `feeling` log
is grouped by (weekday name of its instant, mood label); formatting the
weekday of an unresolvable instant throws the date-fns `RangeError`. -/
def dayStep (pd : String → Option Int) (acc : DayMoods) (l : Log) :
    Except String DayMoods :=
  if l.type == "feeling" then
    match jsDate (getLogTimestamp pd l) with
    | none => .error invalidTimeMsg
    | some t => .ok (bumpDay acc (dayOfWeekName t) l.value)
  else .ok acc

/-- The Rule 3 grouping reduce (lines 281–292), over the whole sequence. -/
def moodsByDayOfWeek (pd : String → Option Int) (logs : List Log) :
    Except String DayMoods :=
  logs.foldlM (dayStep pd) []

/-- Rule 3 emission (lines 294–305): for every day bucket in insertion order,
for every mood in insertion order, a count of at least 3 emits one info alert. -/
def rule3Alerts (dm : DayMoods) : List Alert :=
  dm.flatMap (fun p =>
    (p.2.filter (fun q => 3 ≤ q.2)).map (fun q =>
      ⟨"info", "Student typically feels " ++ q.1 ++ " on " ++ p.1 ++ "s"⟩))

/-- First-match lookup of a mood's count in a day bucket (JS object read). -/
def mcCount : MoodCounts → String → Nat
  | [], _ => 0
  | (k, n) :: rest, m => if k == m then n else mcCount rest m

/-- First-match lookup of a (day, mood) group's count (JS nested object read). -/
def dmCount : DayMoods → String → String → Nat
  | [], _, _ => 0
  | (k, mc) :: rest, d, m => if k == d then mcCount mc m else dmCount rest d m

/-- All (day, mood) keys of the grouping, in iteration order. -/
def dmPairs (dm : DayMoods) : List (String × String) :=
  dm.flatMap (fun p => p.2.map (fun q => (p.1, q.1)))

/-- The (day, mood) groups whose count reaches the threshold 3, in
iteration order. -/
def qualGroups (dm : DayMoods) : List (String × String) :=
  dm.flatMap (fun p => (p.2.filter (fun q => 3 ≤ q.2)).map (fun q => (p.1, q.1)))

/-- Observation: is `l` a feeling log labelled `mood` whose resolved instant
falls on weekday `day`? -/
def feelingDayMatches (pd : String → Option Int) (day mood : String)
    (l : Log) : Bool :=
  l.type == "feeling" && l.value == mood &&
    (match jsDate (getLogTimestamp pd l) with
     | some t => dayOfWeekName t == day
     | none => false)

/-- Observation: the number of feeling logs of label `mood` falling on
weekday `day`, over the WHOLE sequence — the definition carries no `now`
and no time window. -/
def dayMoodCount (pd : String → Option Int) (day mood : String)
    (logs : List Log) : Nat :=
  (logs.filter (feelingDayMatches pd day mood)).length

/-- Structural invariant of the grouping maps: day keys are distinct and
each day bucket's mood keys are distinct. -/
def goodDM (dm : DayMoods) : Prop :=
  (dm.map Prod.fst).Nodup ∧ ∀ p ∈ dm, (p.2.map Prod.fst).Nodup

/-- The Rule 4 look-ahead (lines 313–318): first `feeling` log labelled Angry
or Anxious before the deadline, if any; an instant past the deadline stops
the scan. -/
def rule4Scan (pd : String → Option Int) (deadline : Option Int) :
    List Log → Option String
  | [] => none
  | l :: rest =>
    if optGT (jsDate (getLogTimestamp pd l)) deadline then none
    else if l.type == "feeling" && (l.value == "Angry" || l.value == "Anxious") then
      some l.value
    else rule4Scan pd deadline rest

/-- Rule 4 (lines 308–328): every High-intensity `sensory` log whose forward
scan finds a negative mood emits one warning naming category and mood. -/
def rule4Alerts (pd : String → Option Int) : List Log → List Alert
  | [] => []
  | l :: rest =>
    (if l.type == "sensory" && l.intensity == "High" then
      match rule4Scan pd (stimulusDeadline pd l) rest with
      | some v =>
        [⟨"warning", "High " ++ l.category ++ " input was followed by feeling " ++ v⟩]
      | none => []
     else []) ++ rule4Alerts pd rest

/-- `detectPatterns` (lines 244–329): the four rules share one `now`; their
alerts are concatenated in rule order; a `feeling` log with an unresolvable
instant makes Rule 3's weekday formatting throw, aborting the pass. -/
def detectPatterns (pd : String → Option Int) (now : Int) (logs : List Log) :
    Except String (List Alert) :=
  match moodsByDayOfWeek pd logs with
  | .error e => .error e
  | .ok dm =>
    .ok (rule1Alerts pd now logs ++ rule2Alerts pd now logs ++
         rule3Alerts dm ++ rule4Alerts pd logs)

/-- `detectPatterns` as invoked from JavaScript: calling it with a
null/undefined `logs` throws a `TypeError` at `logs.filter`. -/
def detectPatternsJS (pd : String → Option Int) (now : Int)
    (logs : Option (List Log)) : Except String (List Alert) :=
  match logs with
  | none => .error "TypeError: logs is null or undefined"
  | some ls => detectPatterns pd now ls

/-- A host date parser on which no string parses; concrete instantiations
below only ever apply it to strings (such as "not-a-date") that no
JavaScript engine parses. -/
def pdNone : String → Option Int := fun _ => none

/-- A stimulus log with a numeric timestamp, for concrete scenarios. -/
def mkStim (t : Int) (category intensity : String) : Log :=
  ⟨.num t, .absent, "sensory", "", category, intensity⟩

/-- A mood log with a numeric timestamp, for concrete scenarios. -/
def mkMood (t : Int) (v : String) : Log :=
  ⟨.num t, .absent, "feeling", v, "", ""⟩

/-- A High Visual stimulus whose `timestamp` string parses on no engine and
whose `id` is absent: its instant is unresolvable. -/
def badStim : Log := ⟨.str "not-a-date", .absent, "sensory", "", "Visual", "High"⟩

/-- An Angry mood at epoch instant 0. -/
def angryLog : Log := mkMood 0 "Angry"

/-- A mood log whose instant is unresolvable. -/
def badMoodLog : Log := ⟨.str "not-a-date", .absent, "feeling", "Happy", "", ""⟩

/-- A log with an unparseable string `timestamp` and the numeric id 42. -/
def stringTsLog : Log := ⟨.str "not-a-date", .num 42, "feeling", "Happy", "", ""⟩

/-- Three Angry moods within a two-hour window: two land on a UTC Thursday,
one on the following Friday (scenario for the acute-distress rule). -/
def logsW : List Log :=
  [mkMood 86399998 "Angry", mkMood 86399999 "Angry", mkMood 86400001 "Angry"]

/-- The grouping `logsW` produces: two Thursday Angry logs, one Friday. -/
def dmW : DayMoods := [("Thursday", [("Angry", 2)]), ("Friday", [("Angry", 1)])]

/-- Three Happy moods on consecutive UTC Mondays (epoch days 4, 11, 18). -/
def mondays : List Log :=
  [mkMood (4 * 86400000) "Happy", mkMood (11 * 86400000) "Happy",
   mkMood (18 * 86400000) "Happy"]

/-! ### Helper lemmas -/

/-- An instant within the ECMAScript Date range is not clipped. -/
theorem timeClip_of_le {n : Int} (h : n.natAbs ≤ maxDateMs) : timeClip n = some n := by
  simp [timeClip, h]

theorem jsDate_num {n : Int} (h : n.natAbs ≤ maxDateMs) : jsDate (some n) = some n := by
  simp [jsDate, Option.bind, timeClip_of_le h]

theorem countPair_two (pd : String → Option Int) (c m cat intens v : String)
    (t u : Int) (h1 : t.natAbs ≤ maxDateMs)
    (h2 : (t + twoHoursMs).natAbs ≤ maxDateMs) (hu : u.natAbs ≤ maxDateMs) :
    countPair pd c m [mkStim t cat intens, mkMood u v] =
      if (cat == c && decide (u ≤ t + twoHoursMs) && (v == m)) = true then 1 else 0 := by
  have e2 : jsDate (getLogTimestamp pd (mkMood u v)) = some u := by
    rw [show getLogTimestamp pd (mkMood u v) = some u from rfl, jsDate_num hu]
  have e3 : stimulusDeadline pd (mkStim t cat intens) = some (t + twoHoursMs) := by
    simp [stimulusDeadline, show getLogTimestamp pd (mkStim t cat intens) = some t from rfl,
      jsDate_num h1, timeClip_of_le h2]
  simp only [countPair, scanForward, e2, e3]
  simp only [optGT, mkStim, mkMood]
  by_cases hcat : (cat == c) = true
  · by_cases hin : u ≤ t + twoHoursMs
    · have hgt : decide (t + twoHoursMs < u) = false := by simp; omega
      by_cases hv : (v == m) = true <;> simp [hcat, hin, hv, hgt]
    · have hgt : decide (t + twoHoursMs < u) = true := by simp; omega
      simp [hcat, hin, hgt]
  · simp [hcat]

theorem countPair_three (pd : String → Option Int) (c m cat intens v1 v2 : String)
    (t u v : Int) (h1 : t.natAbs ≤ maxDateMs)
    (h2 : (t + twoHoursMs).natAbs ≤ maxDateMs)
    (hu : u.natAbs ≤ maxDateMs) (hv : v.natAbs ≤ maxDateMs)
    (huw : u ≤ t + twoHoursMs) (hvw : v ≤ t + twoHoursMs) :
    countPair pd c m [mkStim t cat intens, mkMood u v1, mkMood v v2] =
      if (cat == c && (v1 == m || v2 == m)) = true then 1 else 0 := by
  have e3 : stimulusDeadline pd (mkStim t cat intens) = some (t + twoHoursMs) := by
    simp [stimulusDeadline,
      show getLogTimestamp pd (mkStim t cat intens) = some t from rfl,
      jsDate_num h1, timeClip_of_le h2]
  have eu : jsDate (getLogTimestamp pd (mkMood u v1)) = some u := by
    rw [show getLogTimestamp pd (mkMood u v1) = some u from rfl, jsDate_num hu]
  have ev : jsDate (getLogTimestamp pd (mkMood v v2)) = some v := by
    rw [show getLogTimestamp pd (mkMood v v2) = some v from rfl, jsDate_num hv]
  have hgtu : decide (t + twoHoursMs < u) = false := by
    simp only [decide_eq_false_iff_not]; omega
  have hgtv : decide (t + twoHoursMs < v) = false := by
    simp only [decide_eq_false_iff_not]; omega
  simp only [countPair, scanForward, e3, eu, ev, optGT, hgtu, hgtv]
  by_cases hcat : (cat == c) = true
  · by_cases hv1 : (v1 == m) = true
    · simp [hcat, hv1, mkStim, mkMood]
    · by_cases hv2 : (v2 == m) = true <;>
        simp [hcat, hv1, hv2, mkStim, mkMood]
  · simp [hcat, mkStim, mkMood]

theorem mcCount_bumpMood (mc : MoodCounts) (m m' : String) :
    mcCount (bumpMood mc m) m' = mcCount mc m' + if m = m' then 1 else 0 := by
  induction mc with
  | nil => by_cases h : m = m' <;> simp [bumpMood, mcCount, h]
  | cons p rest ih =>
    obtain ⟨k, n⟩ := p
    by_cases hk : k = m
    · subst hk
      by_cases h' : k = m' <;> simp [bumpMood, mcCount, h']
    · by_cases h' : k = m'
      · have hmm : ¬ m = m' := fun hh => hk (h'.trans hh.symm)
        have hmm' : ¬ m' = m := fun hh => hmm hh.symm
        simp [bumpMood, mcCount, hk, h', hmm, hmm']
      · simp [bumpMood, mcCount, hk, h', ih]

theorem dmCount_bumpDay (dm : DayMoods) (d m d' m' : String) :
    dmCount (bumpDay dm d m) d' m' =
      dmCount dm d' m' + if d = d' ∧ m = m' then 1 else 0 := by
  induction dm with
  | nil =>
    by_cases hd : d = d'
    · subst hd
      by_cases hm : m = m' <;> simp [bumpDay, dmCount, mcCount, hm]
    · simp [bumpDay, dmCount, hd]
  | cons p rest ih =>
    obtain ⟨k, mc⟩ := p
    by_cases hk : k = d
    · subst hk
      by_cases hd' : k = d'
      · subst hd'
        by_cases hm : m = m' <;> simp [bumpDay, dmCount, mcCount_bumpMood, hm]
      · simp [bumpDay, dmCount, hd', fun hh : k = d' => hd' hh]
    · by_cases hd' : k = d'
      · have hnd : ¬ (d = d' ∧ m = m') := fun hh => hk (hd'.trans hh.1.symm)
        have hdd : ¬ d' = d := fun hh => hk (hd'.trans hh)
        simp [bumpDay, dmCount, hk, hd', hnd, hdd]
      · simp [bumpDay, dmCount, hk, hd', ih]

theorem mcCount_pos_mem (mc : MoodCounts) (m : String) (h : 0 < mcCount mc m) :
    (m, mcCount mc m) ∈ mc := by
  induction mc with
  | nil => simp [mcCount] at h
  | cons p rest ih =>
    obtain ⟨k, n⟩ := p
    by_cases hk : k = m
    · subst hk
      simp [mcCount]
    · have hcons : mcCount ((k, n) :: rest) m = mcCount rest m := by
        simp [mcCount, hk]
      rw [hcons] at h ⊢
      exact List.mem_cons_of_mem _ (ih h)

theorem mem_mcCount (mc : MoodCounts) (hnd : (mc.map Prod.fst).Nodup)
    (m : String) (n : Nat) (h : (m, n) ∈ mc) : mcCount mc m = n := by
  induction mc with
  | nil => simp at h
  | cons p rest ih =>
    obtain ⟨k, cnt⟩ := p
    simp only [List.map_cons, List.nodup_cons] at hnd
    rcases List.mem_cons.mp h with heq | hmem
    · injection heq with h1 h2
      subst h1
      subst h2
      simp [mcCount]
    · have hm_in : m ∈ rest.map Prod.fst := List.mem_map.mpr ⟨(m, n), hmem, rfl⟩
      have hk : ¬ k = m := fun hh => hnd.1 (hh ▸ hm_in)
      have hcons : mcCount ((k, cnt) :: rest) m = mcCount rest m := by
        simp [mcCount, hk]
      rw [hcons]
      exact ih hnd.2 hmem

theorem dmCount_pos_mem (dm : DayMoods) (d m : String)
    (h : 0 < dmCount dm d m) :
    ∃ mc, (d, mc) ∈ dm ∧ mcCount mc m = dmCount dm d m := by
  induction dm with
  | nil => simp [dmCount] at h
  | cons p rest ih =>
    obtain ⟨k, mc⟩ := p
    by_cases hk : k = d
    · subst hk
      refine ⟨mc, List.mem_cons_self _ _, ?_⟩
      simp [dmCount]
    · have hcons : dmCount ((k, mc) :: rest) d m = dmCount rest d m := by
        simp [dmCount, hk]
      rw [hcons] at h ⊢
      obtain ⟨mc', hmem, hval⟩ := ih h
      exact ⟨mc', List.mem_cons_of_mem _ hmem, hval⟩

theorem mem_dmCount (dm : DayMoods) (hnd : (dm.map Prod.fst).Nodup)
    (d : String) (mc : MoodCounts) (h : (d, mc) ∈ dm) (m : String) :
    dmCount dm d m = mcCount mc m := by
  induction dm with
  | nil => simp at h
  | cons p rest ih =>
    obtain ⟨k, mc'⟩ := p
    simp only [List.map_cons, List.nodup_cons] at hnd
    rcases List.mem_cons.mp h with heq | hmem
    · injection heq with h1 h2
      subst h1
      subst h2
      simp [dmCount]
    · have hd_in : d ∈ rest.map Prod.fst := List.mem_map.mpr ⟨(d, mc), hmem, rfl⟩
      have hk : ¬ k = d := fun hh => hnd.1 (hh ▸ hd_in)
      have hcons : dmCount ((k, mc') :: rest) d m = dmCount rest d m := by
        simp [dmCount, hk]
      rw [hcons]
      exact ih hnd.2 hmem

theorem mem_qualGroups_iff (dm : DayMoods) (hgood : goodDM dm) (d m : String) :
    (d, m) ∈ qualGroups dm ↔ 3 ≤ dmCount dm d m := by
  constructor
  · intro h
    simp only [qualGroups, List.mem_flatMap, List.mem_map, List.mem_filter] at h
    obtain ⟨p, hp, q, ⟨hq, hq3⟩, heq⟩ := h
    injection heq with hd hm
    have h1 : dmCount dm d m = mcCount p.2 m := by
      have hpd : (d, p.2) ∈ dm := by rw [← hd]; exact hp
      exact mem_dmCount dm hgood.1 d p.2 hpd m
    have h2 : mcCount p.2 m = q.2 := by
      have hq' : (m, q.2) ∈ p.2 := by rw [← hm]; exact hq
      exact mem_mcCount p.2 (hgood.2 p hp) m q.2 hq'
    rw [h1, h2]
    simpa using hq3
  · intro h
    have hpos : 0 < dmCount dm d m := by omega
    obtain ⟨mc, hmem, hval⟩ := dmCount_pos_mem dm d m hpos
    have hpos2 : 0 < mcCount mc m := by omega
    have hq := mcCount_pos_mem mc m hpos2
    simp only [qualGroups, List.mem_flatMap]
    refine ⟨(d, mc), hmem, ?_⟩
    simp only [List.mem_map, List.mem_filter]
    refine ⟨(m, mcCount mc m), ⟨hq, ?_⟩, rfl⟩
    simpa using by omega

theorem dmPairs_fst_mem (dm : DayMoods) (x : String × String)
    (h : x ∈ dmPairs dm) : x.1 ∈ dm.map Prod.fst := by
  simp only [dmPairs, List.mem_flatMap, List.mem_map] at h
  obtain ⟨p, hp, q, _, heq⟩ := h
  rw [← heq]
  exact List.mem_map.mpr ⟨p, hp, rfl⟩

theorem dmPairs_nodup (dm : DayMoods) (hgood : goodDM dm) :
    (dmPairs dm).Nodup := by
  induction dm with
  | nil => simp [dmPairs]
  | cons p rest ih =>
    obtain ⟨d, mc⟩ := p
    obtain ⟨hnd, hin⟩ := hgood
    simp only [List.map_cons, List.nodup_cons] at hnd
    have hrest : goodDM rest := ⟨hnd.2, fun q hq => hin q (List.mem_cons_of_mem _ hq)⟩
    simp only [dmPairs, List.flatMap_cons]
    refine List.Nodup.append ?_ (ih hrest) ?_
    · have hmck : (mc.map Prod.fst).Nodup := hin (d, mc) (List.mem_cons_self _ _)
      have hmm : mc.map (fun q => ((d, mc).1, q.1)) =
          (mc.map Prod.fst).map (fun y => (d, y)) := by
        rw [List.map_map]
        rfl
      rw [hmm]
      exact hmck.map (fun a b hab => (Prod.mk.injEq _ _ _ _ ▸ hab).2)
    · intro x hx1 hx2
      have h2 := dmPairs_fst_mem rest x hx2
      have h1 : x.1 = d := by
        simp only [List.mem_map] at hx1
        obtain ⟨q, _, heq⟩ := hx1
        rw [← heq]
      exact hnd.1 (h1 ▸ h2)

theorem qualGroups_sublist_dmPairs (dm : DayMoods) :
    (qualGroups dm).Sublist (dmPairs dm) := by
  induction dm with
  | nil => simp [qualGroups, dmPairs]
  | cons p rest ih =>
    simp only [qualGroups, dmPairs, List.flatMap_cons]
    exact ((List.filter_sublist _).map _).append ih

theorem qualGroups_nodup (dm : DayMoods) (hgood : goodDM dm) :
    (qualGroups dm).Nodup :=
  (dmPairs_nodup dm hgood).sublist (qualGroups_sublist_dmPairs dm)

theorem rule3Alerts_eq_map (dm : DayMoods) :
    rule3Alerts dm = (qualGroups dm).map (fun p =>
      ⟨"info", "Student typically feels " ++ p.2 ++ " on " ++ p.1 ++ "s"⟩) := by
  simp only [rule3Alerts, qualGroups, List.map_flatMap, List.map_map]
  rfl

theorem bumpMood_keys (mc : MoodCounts) (m x : String)
    (h : x ∈ (bumpMood mc m).map Prod.fst) : x ∈ mc.map Prod.fst ∨ x = m := by
  induction mc with
  | nil =>
    simp [bumpMood] at h
    exact Or.inr h
  | cons p rest ih =>
    obtain ⟨k, n⟩ := p
    by_cases hk : k = m
    · subst hk
      have hbump : bumpMood ((k, n) :: rest) k = (k, n + 1) :: rest := by
        simp [bumpMood]
      rw [hbump] at h
      exact Or.inl h
    · have hbump : bumpMood ((k, n) :: rest) m = (k, n) :: bumpMood rest m := by
        simp [bumpMood, hk]
      rw [hbump] at h
      simp only [List.map_cons, List.mem_cons] at h
      rcases h with rfl | h
      · exact Or.inl (List.mem_cons_self _ _)
      · rcases ih h with h' | h'
        · exact Or.inl (List.mem_cons_of_mem _ h')
        · exact Or.inr h'

theorem bumpMood_nodup (mc : MoodCounts) (m : String)
    (h : (mc.map Prod.fst).Nodup) : ((bumpMood mc m).map Prod.fst).Nodup := by
  induction mc with
  | nil => simp [bumpMood]
  | cons p rest ih =>
    obtain ⟨k, n⟩ := p
    simp only [List.map_cons, List.nodup_cons] at h
    by_cases hk : k = m
    · subst hk
      have hbump : bumpMood ((k, n) :: rest) k = (k, n + 1) :: rest := by
        simp [bumpMood]
      rw [hbump]
      simp only [List.map_cons, List.nodup_cons]
      exact h
    · have hbump : bumpMood ((k, n) :: rest) m = (k, n) :: bumpMood rest m := by
        simp [bumpMood, hk]
      rw [hbump]
      simp only [List.map_cons, List.nodup_cons]
      refine ⟨?_, ih h.2⟩
      intro hmem
      rcases bumpMood_keys rest m k hmem with h' | h'
      · exact h.1 h'
      · exact hk h'

theorem bumpDay_keys (dm : DayMoods) (d m x : String)
    (h : x ∈ (bumpDay dm d m).map Prod.fst) : x ∈ dm.map Prod.fst ∨ x = d := by
  induction dm with
  | nil =>
    simp [bumpDay] at h
    exact Or.inr h
  | cons p rest ih =>
    obtain ⟨k, mc⟩ := p
    by_cases hk : k = d
    · subst hk
      have hbump : bumpDay ((k, mc) :: rest) k m = (k, bumpMood mc m) :: rest := by
        simp [bumpDay]
      rw [hbump] at h
      exact Or.inl h
    · have hbump : bumpDay ((k, mc) :: rest) d m = (k, mc) :: bumpDay rest d m := by
        simp [bumpDay, hk]
      rw [hbump] at h
      simp only [List.map_cons, List.mem_cons] at h
      rcases h with rfl | h
      · exact Or.inl (List.mem_cons_self _ _)
      · rcases ih h with h' | h'
        · exact Or.inl (List.mem_cons_of_mem _ h')
        · exact Or.inr h'

theorem goodDM_bumpDay (dm : DayMoods) (d m : String) (h : goodDM dm) :
    goodDM (bumpDay dm d m) := by
  induction dm with
  | nil =>
    constructor
    · simp [bumpDay]
    · intro p hp
      simp [bumpDay] at hp
      subst hp
      simp
  | cons q rest ih =>
    obtain ⟨k, mc⟩ := q
    obtain ⟨hnd, hin⟩ := h
    simp only [List.map_cons, List.nodup_cons] at hnd
    by_cases hk : k = d
    · subst hk
      have hbump : bumpDay ((k, mc) :: rest) k m = (k, bumpMood mc m) :: rest := by
        simp [bumpDay]
      rw [hbump]
      constructor
      · simp only [List.map_cons, List.nodup_cons]
        exact hnd
      · intro p hp
        rcases List.mem_cons.mp hp with rfl | hp'
        · exact bumpMood_nodup mc m (hin (k, mc) (List.mem_cons_self _ _))
        · exact hin p (List.mem_cons_of_mem _ hp')
    · have hrest : goodDM rest :=
        ⟨hnd.2, fun q hq => hin q (List.mem_cons_of_mem _ hq)⟩
      have hbump : bumpDay ((k, mc) :: rest) d m = (k, mc) :: bumpDay rest d m := by
        simp [bumpDay, hk]
      rw [hbump]
      obtain ⟨ih1, ih2⟩ := ih hrest
      constructor
      · simp only [List.map_cons, List.nodup_cons]
        refine ⟨?_, ih1⟩
        intro hmem
        rcases bumpDay_keys rest d m k hmem with h' | h'
        · exact hnd.1 h'
        · exact hk h'
      · intro p hp
        rcases List.mem_cons.mp hp with rfl | hp'
        · exact hin (k, mc) (List.mem_cons_self _ _)
        · exact ih2 p hp'

theorem foldlM_dayStep (pd : String → Option Int) (logs : List Log) :
    ∀ acc : DayMoods,
      (∀ l ∈ logs, l.type = "feeling" → (jsDate (getLogTimestamp pd l)).isSome) →
      ∃ dm, List.foldlM (dayStep pd) acc logs = .ok dm ∧
        (∀ d m, dmCount dm d m = dmCount acc d m + dayMoodCount pd d m logs) ∧
        (goodDM acc → goodDM dm) := by
  induction logs with
  | nil =>
    intro acc _
    exact ⟨acc, rfl, fun d m => by simp [dayMoodCount], fun hg => hg⟩
  | cons l rest ih =>
    intro acc hok
    by_cases hf : l.type = "feeling"
    · obtain ⟨t, ht⟩ := Option.isSome_iff_exists.mp
        (hok l (List.mem_cons_self _ _) hf)
      have hstep : dayStep pd acc l =
          .ok (bumpDay acc (dayOfWeekName t) l.value) := by
        simp [dayStep, hf, ht]
      obtain ⟨dm, hfold, hcnt, hgd⟩ :=
        ih (bumpDay acc (dayOfWeekName t) l.value)
          (fun x hx => hok x (List.mem_cons_of_mem _ hx))
      refine ⟨dm, ?_, ?_, fun hg => hgd (goodDM_bumpDay acc _ _ hg)⟩
      · simpa [List.foldlM, hstep] using hfold
      · intro d m
        rw [hcnt d m, dmCount_bumpDay]
        have hsplit : dayMoodCount pd d m (l :: rest) =
            (if dayOfWeekName t = d ∧ l.value = m then 1 else 0) +
              dayMoodCount pd d m rest := by
          by_cases hc : dayOfWeekName t = d ∧ l.value = m
          · have hpl : feelingDayMatches pd d m l = true := by
              simp [feelingDayMatches, hf, ht, hc.1, hc.2]
            simp [dayMoodCount, List.filter_cons, hpl, hc]
            omega
          · have hpl : feelingDayMatches pd d m l = false := by
              rcases not_and_or.mp hc with h' | h' <;>
                simp [feelingDayMatches, hf, ht, h']
            simp [dayMoodCount, List.filter_cons, hpl, hc]
        rw [hsplit]
        omega
    · have hstep : dayStep pd acc l = .ok acc := by simp [dayStep, hf]
      obtain ⟨dm, hfold, hcnt, hgd⟩ := ih acc
        (fun x hx => hok x (List.mem_cons_of_mem _ hx))
      refine ⟨dm, by simpa [List.foldlM, hstep] using hfold, ?_, hgd⟩
      intro d m
      rw [hcnt d m]
      have hpl : feelingDayMatches pd d m l = false := by
        simp [feelingDayMatches, hf]
      simp [dayMoodCount, List.filter_cons, hpl]

/-! ### The claims -/

/-- Claim C1 (corrected), counterexample: the stimulus `badStim` has an
unresolvable instant, yet the correlation engine counts the (Visual, Angry)
pair for it and `detectPatterns` emits a Rule-4 alert for it — its invalid
deadline never stops the forward scan.  Moreover a mood log with an
unresolvable instant makes the pattern pass throw in Rule 3's weekday
formatting rather than complete. -/
theorem claim1_counterexample :
    getLogTimestamp pdNone badStim = none ∧
    getSensoryMoodCorrelation pdNone [badStim, angryLog] =
      [⟨"Visual", "Angry", 1⟩] ∧
    detectPatterns pdNone 0 [badStim, angryLog] =
      .ok [⟨"warning", "High Visual input was followed by feeling Angry"⟩] ∧
    getLogTimestamp pdNone badMoodLog = none ∧
    detectPatterns pdNone 0 [badMoodLog] = .error invalidTimeMsg :=
  ⟨rfl, rfl, rfl, rfl, rfl⟩

/-- Claim C1 (corrected), amended: an event with an unresolvable instant is
excluded from the trailing-window Rules 1–2 (their predicates reject it),
but in the forward-window scans all comparisons against its `NaN` are false
with the opposite effect: a stimulus with an unresolvable instant has an
unresolvable deadline, so its scan never exits early and it matches (and so
counts, or raises a Rule-4 alert) exactly when any later event carries the
target mood; a mood event with an unresolvable instant never triggers the
deadline exit and is itself counted as a match when its label fits; and the
pattern pass does not complete silently — a `feeling` event with an
unresolvable instant makes Rule 3's weekday formatting throw.  The
correlation pass never throws (it is total by construction). -/
theorem claim1_amended (pd : String → Option Int) (l : Log)
    (h : getLogTimestamp pd l = none) (now : Int) (mood : String)
    (rest : List Log) :
    rule1Pred pd now l = false ∧
    rule2Pred pd now l = false ∧
    scanForward pd (stimulusDeadline pd l) mood rest =
      rest.any (fun x => x.type == "feeling" && x.value == mood) ∧
    (∀ (deadline : Option Int) (rest2 : List Log),
      l.type = "feeling" → l.value = mood →
      scanForward pd deadline mood (l :: rest2) = true) ∧
    (∀ rest2 : List Log, l.type = "feeling" →
      moodsByDayOfWeek pd (l :: rest2) = .error invalidTimeMsg) := by
  have hjs : jsDate (getLogTimestamp pd l) = none := by rw [h]; rfl
  have hdl : stimulusDeadline pd l = none := by
    unfold stimulusDeadline
    rw [hjs]
    rfl
  refine ⟨?_, ?_, ?_, ?_, ?_⟩
  · simp [rule1Pred, hjs, optGE]
  · simp [rule2Pred, hjs, optGE]
  · rw [hdl]
    clear hdl
    induction rest with
    | nil => rfl
    | cons x xs ih =>
      simp only [scanForward, List.any_cons]
      have : optGT (jsDate (getLogTimestamp pd x)) none = false := by
        cases jsDate (getLogTimestamp pd x) <;> rfl
      rw [this]
      simp only [if_false, Bool.false_eq_true]
      by_cases hx : (x.type == "feeling" && x.value == mood) = true
      · simp [hx]
      · simp only [Bool.not_eq_true] at hx
        simp [hx, ih]
  · intro deadline rest2 ht hv
    simp only [scanForward, hjs]
    have : optGT (none : Option Int) deadline = false := by
      cases deadline <;> rfl
    simp [this, ht, hv]
  · intro rest2 ht
    simp only [moodsByDayOfWeek, List.foldlM, dayStep, ht, hjs]
    simp only [beq_self_eq_true, if_true]
    rfl

/-- Claim C1 witness: the amended theorem applied to the concrete
unresolvable stimulus `badStim`. -/
theorem claim1_witness :
    rule1Pred pdNone 0 badStim = false ∧
    scanForward pdNone (stimulusDeadline pdNone badStim) "Angry" [angryLog] =
      [angryLog].any (fun x => x.type == "feeling" && x.value == "Angry") := by
  have h := claim1_amended pdNone badStim rfl 0 "Angry" [angryLog]
  exact ⟨h.1, h.2.2.1⟩

/-- Claim C2 (corrected), counterexample: an event whose `timestamp` is the
unparseable string "not-a-date" and whose `id` is the numeric instant 42
does NOT resolve to 42 — the string parse's invalid result is returned as
is, with no fall-through to the identifier. -/
theorem claim2_counterexample :
    stringTsLog.timestamp = .str "not-a-date" ∧
    pdNone "not-a-date" = none ∧
    stringTsLog.id = .num 42 ∧
    getLogTimestamp pdNone stringTsLog ≠ some 42 ∧
    getLogTimestamp pdNone stringTsLog = none :=
  ⟨rfl, rfl, rfl, by decide, rfl⟩

/-- Claim C2 (corrected), amended: `getLogTimestamp` applies its rules in
order, but rule 2 never falls through — a string `timestamp` is always
parsed and the (possibly invalid) parse result is the answer; the `id` field
is consulted only when `timestamp` is neither a number nor a string, and is
then used directly if numeric, else parsed. -/
theorem claim2_amended (pd : String → Option Int) (l : Log) :
    (∀ n, l.timestamp = .num n → getLogTimestamp pd l = some n) ∧
    (∀ s, l.timestamp = .str s → getLogTimestamp pd l = pd s) ∧
    (l.timestamp = .absent → ∀ n, l.id = .num n → getLogTimestamp pd l = some n) ∧
    (l.timestamp = .absent → ∀ s, l.id = .str s → getLogTimestamp pd l = pd s) ∧
    (l.timestamp = .absent → l.id = .absent → getLogTimestamp pd l = none) := by
  refine ⟨?_, ?_, ?_, ?_, ?_⟩ <;> intros <;> simp [getLogTimestamp, *]

/-- Claim C2 witness: the amended theorem applied to the concrete log whose
string timestamp does not parse: the parse result (`none`) is returned, and
the numeric id 42 is ignored. -/
theorem claim2_witness : getLogTimestamp pdNone stringTsLog = pdNone "not-a-date" :=
  (claim2_amended pdNone stringTsLog).2.1 "not-a-date" rfl

/-- Claim C3 (confirmed): the forward window's upper bound is inclusive.
For a stimulus with in-range resolved instant `t`, any mood event resolving
to exactly `t + 7,200,000` passes the deadline comparison and is matched by
the forward scan, while an event at `t + 7,200,001` stops the scan; end to
end, the boundary mood yields the correlation pair with count 1 and the
Rule-4 alert, and the mood one millisecond later yields neither. -/
theorem claim3 (pd : String → Option Int) (t : Int)
    (h1 : t.natAbs ≤ maxDateMs) (h2 : (t + twoHoursMs).natAbs ≤ maxDateMs)
    (h3 : (t + twoHoursMs + 1).natAbs ≤ maxDateMs) :
    (∀ (m : Log) (mood : String) (rest : List Log),
        getLogTimestamp pd m = some (t + twoHoursMs) →
        m.type = "feeling" → m.value = mood →
        scanForward pd (stimulusDeadline pd (mkStim t "Auditory" "High")) mood
          (m :: rest) = true) ∧
    (∀ (m : Log) (mood : String) (rest : List Log),
        getLogTimestamp pd m = some (t + twoHoursMs + 1) →
        scanForward pd (stimulusDeadline pd (mkStim t "Auditory" "High")) mood
          (m :: rest) = false) ∧
    getSensoryMoodCorrelation pd
      [mkStim t "Auditory" "High", mkMood (t + twoHoursMs) "Anxious"]
      = [⟨"Auditory", "Anxious", 1⟩] ∧
    getSensoryMoodCorrelation pd
      [mkStim t "Auditory" "High", mkMood (t + twoHoursMs + 1) "Anxious"] = [] ∧
    rule4Alerts pd [mkStim t "Auditory" "High", mkMood (t + twoHoursMs) "Anxious"]
      = [⟨"warning", "High Auditory input was followed by feeling Anxious"⟩] ∧
    rule4Alerts pd [mkStim t "Auditory" "High", mkMood (t + twoHoursMs + 1) "Anxious"]
      = [] := by
  have hle : decide (t + twoHoursMs ≤ t + twoHoursMs) = true := by
    simp only [decide_eq_true_eq]; omega
  have hle1 : decide (t + twoHoursMs + 1 ≤ t + twoHoursMs) = false := by
    simp only [decide_eq_false_iff_not]; omega
  have hgt : decide (t + twoHoursMs < t + twoHoursMs) = false := by
    simp only [decide_eq_false_iff_not]; omega
  have hgt1 : decide (t + twoHoursMs < t + twoHoursMs + 1) = true := by
    simp only [decide_eq_true_eq]; omega
  have e3 : stimulusDeadline pd (mkStim t "Auditory" "High") = some (t + twoHoursMs) := by
    simp [stimulusDeadline,
      show getLogTimestamp pd (mkStim t "Auditory" "High") = some t from rfl,
      jsDate_num h1, timeClip_of_le h2]
  have eM : jsDate (getLogTimestamp pd (mkMood (t + twoHoursMs) "Anxious"))
      = some (t + twoHoursMs) := by
    rw [show getLogTimestamp pd (mkMood (t + twoHoursMs) "Anxious")
        = some (t + twoHoursMs) from rfl, jsDate_num h2]
  have eM1 : jsDate (getLogTimestamp pd (mkMood (t + twoHoursMs + 1) "Anxious"))
      = some (t + twoHoursMs + 1) := by
    rw [show getLogTimestamp pd (mkMood (t + twoHoursMs + 1) "Anxious")
        = some (t + twoHoursMs + 1) from rfl, jsDate_num h3]
  refine ⟨?_, ?_, ?_, ?_, ?_, ?_⟩
  · intro m mood rest hm ht hv
    rw [e3]
    simp only [scanForward, hm, jsDate_num h2, optGT, hgt, ht, hv]
    simp
  · intro m mood rest hm
    rw [e3]
    simp only [scanForward, hm, jsDate_num h3, optGT, hgt1]
    simp
  · simp only [getSensoryMoodCorrelation, correlationRecords, sensoryCategories, moods, List.foldl]
    simp only [countPair_two pd _ _ _ _ _ t (t + twoHoursMs) h1 h2 h2, hle]
    decide
  · simp only [getSensoryMoodCorrelation, correlationRecords, sensoryCategories, moods, List.foldl]
    simp only [countPair_two pd _ _ _ _ _ t (t + twoHoursMs + 1) h1 h2 h3, hle1]
    decide
  · simp only [rule4Alerts, rule4Scan, e3, eM, optGT, hgt]
    simp [mkStim, mkMood]
  · simp only [rule4Alerts, rule4Scan, e3, eM1, optGT, hgt1]
    simp [mkStim, mkMood]

/-- Claim C3 witness: the theorem applied at `t = 0` (spec scenarios A/B). -/
theorem claim3_witness :
    getSensoryMoodCorrelation pdNone [mkStim 0 "Auditory" "High", mkMood 7200000 "Anxious"]
      = [⟨"Auditory", "Anxious", 1⟩] ∧
    getSensoryMoodCorrelation pdNone [mkStim 0 "Auditory" "High", mkMood 7200001 "Anxious"]
      = [] ∧
    rule4Alerts pdNone [mkStim 0 "Auditory" "High", mkMood 7200000 "Anxious"]
      = [⟨"warning", "High Auditory input was followed by feeling Anxious"⟩] ∧
    rule4Alerts pdNone [mkStim 0 "Auditory" "High", mkMood 7200001 "Anxious"] = [] := by
  have h := claim3 pdNone 0 (by decide) (by decide) (by decide)
  exact ⟨h.2.2.1, h.2.2.2.1, h.2.2.2.2.1, h.2.2.2.2.2⟩

/-- Claim C4 (confirmed): first-match dedup.  A stimulus followed within
the window by two mood events of the same label contributes exactly 1 to
the pair's count, not 2; and once a scan hits a matching mood event its
result does not depend on anything after that event (the scan stops). -/
theorem claim4 (pd : String → Option Int) (t u v : Int)
    (h1 : t.natAbs ≤ maxDateMs) (h2 : (t + twoHoursMs).natAbs ≤ maxDateMs)
    (hu : u.natAbs ≤ maxDateMs) (hv : v.natAbs ≤ maxDateMs)
    (huw : u ≤ t + twoHoursMs) (hvw : v ≤ t + twoHoursMs) :
    countPair pd "Visual" "Happy"
      [mkStim t "Visual" "Low", mkMood u "Happy", mkMood v "Happy"] = 1 ∧
    getSensoryMoodCorrelation pd
      [mkStim t "Visual" "Low", mkMood u "Happy", mkMood v "Happy"]
      = [⟨"Visual", "Happy", 1⟩] ∧
    (∀ (deadline : Option Int) (m : Log) (rest rest2 : List Log) (mood : String),
       optGT (jsDate (getLogTimestamp pd m)) deadline = false →
       m.type = "feeling" → m.value = mood →
       scanForward pd deadline mood (m :: rest) =
         scanForward pd deadline mood (m :: rest2)) := by
  refine ⟨?_, ?_, ?_⟩
  · rw [countPair_three pd "Visual" "Happy" "Visual" "Low" "Happy" "Happy" t u v
      h1 h2 hu hv huw hvw]
    decide
  · simp only [getSensoryMoodCorrelation, correlationRecords, sensoryCategories, moods, List.foldl]
    simp only [countPair_three pd _ _ _ _ _ _ t u v h1 h2 hu hv huw hvw]
    decide
  · intro deadline m rest rest2 mood hf ht hmv
    simp only [scanForward, hf, ht, hmv]
    simp

/-- Claim C4 witness: the theorem applied at instants 0, 1, 2. -/
theorem claim4_witness :
    countPair pdNone "Visual" "Happy"
      [mkStim 0 "Visual" "Low", mkMood 1 "Happy", mkMood 2 "Happy"] = 1 ∧
    getSensoryMoodCorrelation pdNone
      [mkStim 0 "Visual" "Low", mkMood 1 "Happy", mkMood 2 "Happy"]
      = [⟨"Visual", "Happy", 1⟩] := by
  have h := claim4 pdNone 0 1 2 (by decide) (by decide) (by decide) (by decide)
    (by decide) (by decide)
  exact ⟨h.1, h.2.1⟩

/-- Claim C5 (confirmed): Rule 1 threshold semantics for a fixed `now`.
With exactly 2 qualifying mood events (Angry/Anxious within the trailing
two hours) the output carries no Rule-1 alert — it is exactly the output of
Rules 2–4; with 3 or more, exactly one warning alert with the interpolated
count is prepended to the output of Rules 2–4. -/
theorem claim5 (pd : String → Option Int) (now : Int) (logs : List Log)
    (dm : DayMoods) (hok : moodsByDayOfWeek pd logs = .ok dm) :
    ((logs.filter (rule1Pred pd now)).length = 2 →
      detectPatterns pd now logs =
        .ok (rule2Alerts pd now logs ++ rule3Alerts dm ++ rule4Alerts pd logs)) ∧
    (3 ≤ (logs.filter (rule1Pred pd now)).length →
      detectPatterns pd now logs =
        .ok (⟨"warning", toString (logs.filter (rule1Pred pd now)).length ++
              " anxious/angry logs in the past 2 hours"⟩ ::
             (rule2Alerts pd now logs ++ rule3Alerts dm ++ rule4Alerts pd logs))) := by
  constructor
  · intro h2
    simp only [detectPatterns, hok, rule1Alerts, h2]
    norm_num
  · intro h3
    simp only [detectPatterns, hok, rule1Alerts, if_pos h3]
    simp

/-- Claim C5 witness: three Angry moods inside the trailing window of
`now = 86,400,002` produce exactly the Rule-1 warning. -/
theorem claim5_witness :
    detectPatterns pdNone 86400002 logsW =
      .ok [⟨"warning", "3 anxious/angry logs in the past 2 hours"⟩] := by
  have h := (claim5 pdNone 86400002 logsW dmW rfl).2 (by decide)
  exact h.trans (by rfl)

/-- Claim C6 (corrected), counterexample: an empty sequence yields the
empty-result shape from both core entry points, but an absent
(null/undefined) sequence does NOT — both entry points throw a `TypeError`
instead of returning `[]`. -/
theorem claim6_counterexample :
    getSensoryMoodCorrelationJS pdNone (some []) = .ok [] ∧
    detectPatternsJS pdNone 0 (some []) = .ok [] ∧
    getSensoryMoodCorrelationJS pdNone none =
      .error "TypeError: logs is null or undefined" ∧
    detectPatternsJS pdNone 0 none =
      .error "TypeError: logs is null or undefined" :=
  ⟨rfl, rfl, rfl, rfl⟩

/-- Claim C6 (corrected), amended: for an empty sequence the correlation
engine and the pattern detector return their empty-result shape (`[]`) and
raise nothing; for an absent (null/undefined) sequence both throw a
`TypeError` (the source has no null guard before `logs.forEach` /
`logs.filter`). -/
theorem claim6_amended (pd : String → Option Int) (now : Int) :
    getSensoryMoodCorrelation pd [] = [] ∧
    detectPatterns pd now [] = .ok [] ∧
    getSensoryMoodCorrelationJS pd none =
      .error "TypeError: logs is null or undefined" ∧
    detectPatternsJS pd now none =
      .error "TypeError: logs is null or undefined" :=
  ⟨rfl, rfl, rfl, rfl⟩

/-- Claim C6 witness: the amended theorem applied at an arbitrary `now`. -/
theorem claim6_witness : detectPatterns pdNone 54321 [] = .ok [] :=
  (claim6_amended pdNone 54321).2.1

/-- Claim C7 (confirmed): Rule 3 is window-free.  Provided every feeling
log's instant resolves (otherwise the weekday formatting throws), the
grouping succeeds and, for every (day, mood): the group's stored count is
`dayMoodCount` — a count over the WHOLE sequence whose definition carries
no `now` and no window, so arbitrarily old events contribute; the group
qualifies (count ≥ 3) iff `dayMoodCount` reaches 3; qualifying groups are
pairwise distinct; and Rule 3's alerts are exactly one info alert
"Student typically feels <mood> on <Weekday>s" per qualifying group, in
iteration order. -/
theorem claim7 (pd : String → Option Int) (logs : List Log) (day mood : String)
    (hok : ∀ l ∈ logs, l.type = "feeling" → (jsDate (getLogTimestamp pd l)).isSome) :
    ∃ dm, moodsByDayOfWeek pd logs = .ok dm ∧
      dmCount dm day mood = dayMoodCount pd day mood logs ∧
      ((day, mood) ∈ qualGroups dm ↔ 3 ≤ dayMoodCount pd day mood logs) ∧
      (qualGroups dm).Nodup ∧
      rule3Alerts dm = (qualGroups dm).map (fun p =>
        ⟨"info", "Student typically feels " ++ p.2 ++ " on " ++ p.1 ++ "s"⟩) := by
  obtain ⟨dm, hfold, hcnt, hgd⟩ := foldlM_dayStep pd logs [] hok
  have hgood : goodDM dm := hgd ⟨by simp, by simp⟩
  have hc : dmCount dm day mood = dayMoodCount pd day mood logs := by
    have := hcnt day mood
    simpa [dmCount] using this
  refine ⟨dm, hfold, hc, ?_, qualGroups_nodup dm hgood, rule3Alerts_eq_map dm⟩
  rw [← hc]
  exact mem_qualGroups_iff dm hgood day mood

/-- Claim C7 witness: three Happy moods on three distinct UTC Mondays
(spec scenario D) qualify the (Monday, Happy) group. -/
theorem claim7_witness :
    3 ≤ dayMoodCount pdNone "Monday" "Happy" mondays ∧
    (∃ dm, moodsByDayOfWeek pdNone mondays = .ok dm ∧
      (("Monday", "Happy") ∈ qualGroups dm ↔
        3 ≤ dayMoodCount pdNone "Monday" "Happy" mondays)) := by
  refine ⟨by decide, ?_⟩
  obtain ⟨dm, h1, _, h3, _, _⟩ := claim7 pdNone mondays "Monday" "Happy" (by decide)
  exact ⟨dm, h1, h3⟩

/-- Claim C8 (confirmed): the zero-filtering invariant.  Every correlation
record the engine returns has a strictly positive count; zero-count pairs
are discarded by the final filter. -/
theorem claim8 (pd : String → Option Int) (logs : List Log) :
    ∀ c ∈ getSensoryMoodCorrelation pd logs, 0 < c.count := by
  intro c hc
  have h := (List.mem_filter.mp hc).2
  simpa using h

/-- Claim C8 witness: the theorem applied to a concrete two-log sequence
whose output contains the (Visual, Happy) pair with count 1. -/
theorem claim8_witness : 0 < (Correlation.mk "Visual" "Happy" 1).count :=
  claim8 pdNone [mkStim 0 "Visual" "Low", mkMood 1 "Happy"]
    (Correlation.mk "Visual" "Happy" 1) (by decide)

/-- Claim C9 (confirmed): determinism and output order.  The engine is a
pure function of (parser, sequence) — two calls on the same input are
identical — and its output equals the spec-worded `specCorrelations`:
the cartesian product in fixed iteration order (categories outer, moods
inner), zero-count pairs removed. -/
theorem claim9 (pd : String → Option Int) (logs : List Log) :
    getSensoryMoodCorrelation pd logs = getSensoryMoodCorrelation pd logs ∧
    getSensoryMoodCorrelation pd logs = specCorrelations pd logs :=
  ⟨rfl, rfl⟩

/-- Claim C10 (confirmed): every returned pair's category is one of the
hardcoded {Visual, Auditory, Tactile} and its mood one of {Happy, Sad,
Angry, Anxious} — in particular a category such as Olfactory can never
appear — and no (category, mood) pair occurs twice in the output. -/
theorem claim10 (pd : String → Option Int) (logs : List Log) :
    (∀ c ∈ getSensoryMoodCorrelation pd logs,
      c.sensory ∈ sensoryCategories ∧ c.mood ∈ moods ∧ c.sensory ≠ "Olfactory") ∧
    ((getSensoryMoodCorrelation pd logs).map (fun c => (c.sensory, c.mood))).Nodup := by
  constructor
  · intro c hc
    have hb : c ∈ correlationRecords pd logs := (List.mem_filter.mp hc).1
    simp only [correlationRecords, sensoryCategories, moods, List.foldl] at hb
    simp only [List.nil_append, List.cons_append, List.mem_cons, List.not_mem_nil, or_false] at hb
    rcases hb with rfl | rfl | rfl | rfl | rfl | rfl | rfl | rfl | rfl | rfl | rfl | rfl <;>
      exact ⟨by simp [sensoryCategories], by simp [moods], by simp⟩
  · have hsub :
        ((getSensoryMoodCorrelation pd logs).map (fun c => (c.sensory, c.mood))).Sublist
          ((correlationRecords pd logs).map (fun c => (c.sensory, c.mood))) :=
      (List.filter_sublist _).map _
    have hbase :
        (correlationRecords pd logs).map (fun c => (c.sensory, c.mood)) =
          [("Visual", "Happy"), ("Visual", "Sad"), ("Visual", "Angry"),
           ("Visual", "Anxious"), ("Auditory", "Happy"), ("Auditory", "Sad"),
           ("Auditory", "Angry"), ("Auditory", "Anxious"), ("Tactile", "Happy"),
           ("Tactile", "Sad"), ("Tactile", "Angry"), ("Tactile", "Anxious")] := rfl
    have hnd : ((correlationRecords pd logs).map
        (fun c => (c.sensory, c.mood))).Nodup := by
      rw [hbase]; decide
    exact hnd.sublist hsub

/-- Claim C10 witness: the theorem applied to a concrete sequence whose
output contains the (Visual, Happy) pair. -/
theorem claim10_witness :
    ((Correlation.mk "Visual" "Happy" 1).sensory ∈ sensoryCategories ∧
      (Correlation.mk "Visual" "Happy" 1).mood ∈ moods ∧
      (Correlation.mk "Visual" "Happy" 1).sensory ≠ "Olfactory") :=
  (claim10 pdNone [mkStim 0 "Visual" "Low", mkMood 1 "Happy"]).1
    (Correlation.mk "Visual" "Happy" 1) (by decide)

end Nykrea
